import Mathlib

/-!
Shallow embedding of the Sharp Memory Display driver (`src/lib.rs`).

The driver owns a packed 1-bit-per-pixel buffer, a VCOM polarity flag, and
two external collaborators: an SPI byte writer and a chip-select output pin.
We model the collaborators by a fault oracle `Hw`: the n-th SPI write call of
the driver lifetime fails iff `hw.spiFail n`, and the n-th chip-select pin
operation fails iff `hw.csFail n`.  Every external call is recorded as an
event (`Ev`) carrying the attempted payload and whether the call succeeded,
so theorems can speak about the bytes transmitted on the bus.

Machine integers of the source (`u8`, `usize`) are modelled as `Nat`; the
one place where `u8` overflow matters (`get_index` computes `y * WIDTH + x`
in `u8`) carries an explicit `% 256`, matching release-mode wrapping
semantics.  Fallible operations return `Except Unit Unit`, mirroring the
source's `Result<(), ()>`.
-/

/-- Display width in pixels (`const WIDTH: u8 = 44` in the source). -/
def WIDTH : Nat := 44

/-- Display height in pixels (`const HEIGHT: u8 = 68` in the source). -/
def HEIGHT : Nat := 68

/-- Packed buffer size in bytes (`WIDTH * HEIGHT / 8 = 374` in the source). -/
def BUFFER_SIZE : Nat := WIDTH * HEIGHT / 8

/-- Opcode of the write-lines command (`CommandBit::WriteCmd = 0x80`). -/
def writeCmd : Nat := 0x80

/-- Opcode of the clear command (`CommandBit::ClearBit = 0x20`). -/
def clearBit : Nat := 0x20

/-- Events observable on the external collaborators: an SPI write of a byte,
and driving the chip-select pin low or high.  The `ok` flag records whether
the external call succeeded (as dictated by the fault oracle). -/
inductive Ev where
  | spi (data : Nat) (ok : Bool)
  | csLow (ok : Bool)
  | csHigh (ok : Bool)
  deriving DecidableEq

/-- Fault oracle for the two external collaborators: `spiFail n` decides the
outcome of the n-th SPI write call of the driver lifetime, `csFail n` the
outcome of the n-th chip-select pin operation. -/
structure Hw where
  spiFail : Nat → Bool
  csFail : Nat → Bool

/-- Driver state: the fields of `Display` that the claims concern (`buffer`
and `vcom`), plus the call counters that index the fault oracle. -/
structure St where
  buffer : List Nat
  vcom : Bool
  spiCount : Nat
  csCount : Nat
  deriving DecidableEq

/-- The fault-free oracle: every external call succeeds. -/
def hwOk : Hw := ⟨fun _ => false, fun _ => false⟩

/-- Oracle whose k-th SPI write call (0-based) fails and every other
external call succeeds. -/
def hwFailAt (k : Nat) : Hw := ⟨fun n => n == k, fun _ => false⟩

/-- Oracle whose chip-select pin operations all fail. -/
def hwCsFailAll : Hw := ⟨fun _ => false, fun _ => true⟩

/-- Driver state right after construction: zeroed buffer of `BUFFER_SIZE`
bytes and `vcom = true` (`Display::new` initializes `vcom: true`). -/
def st0 : St := ⟨List.replicate BUFFER_SIZE 0, true, 0, 0⟩

/-- Embedding of `Display::write_byte`: one SPI write call of `data`; the
state update (the call counter) happens irrespective of the outcome. -/
def write_byte (hw : Hw) (st : St) (data : Nat) : Except Unit Unit × St × List Ev :=
  ((if hw.spiFail st.spiCount then Except.error () else Except.ok ()),
   { st with spiCount := st.spiCount + 1 },
   [Ev.spi data (! hw.spiFail st.spiCount)])

/-- Embedding of `self.cs.set_low()`: assert chip-select. -/
def cs_set_low (hw : Hw) (st : St) : Except Unit Unit × St × List Ev :=
  ((if hw.csFail st.csCount then Except.error () else Except.ok ()),
   { st with csCount := st.csCount + 1 },
   [Ev.csLow (! hw.csFail st.csCount)])

/-- Embedding of `self.cs.set_high()`: deassert chip-select. -/
def cs_set_high (hw : Hw) (st : St) : Except Unit Unit × St × List Ev :=
  ((if hw.csFail st.csCount then Except.error () else Except.ok ()),
   { st with csCount := st.csCount + 1 },
   [Ev.csHigh (! hw.csFail st.csCount)])

/-- The command byte value built by `Display::command`: the opcode with the
VCOM bit `0x40` ORed in when the current polarity is high. -/
def commandByte (vcom : Bool) (c : Nat) : Nat :=
  if vcom then c ||| 0x40 else c

/-- Embedding of `Display::command`: returns the command byte for the current
polarity and toggles the polarity (`toggle_vcom`) unconditionally. -/
def command (st : St) (c : Nat) : Nat × St :=
  (commandByte st.vcom c, { st with vcom := ! st.vcom })

/-- Embedding of `get_index`: `y * WIDTH + x` is computed in `u8`, so it
wraps modulo 256; the result is split into byte index and bit index. -/
def get_index (x y : Nat) : Nat × Nat :=
  let into := (y * WIDTH + x) % 256
  (into / 8, into % 8)

/-- Embedding of `Display::set_pixel`: no-op when `x > WIDTH || y > HEIGHT`
(note: the source uses strict `>`); otherwise sets or clears the addressed
bit.  `!(1 << bit)` in `u8` is `255 ^^^ (1 <<< bit)`. -/
def set_pixel (st : St) (x y : Nat) (black : Bool) : St :=
  if WIDTH < x ∨ HEIGHT < y then st
  else
    let p := get_index x y
    let old := st.buffer.getD p.1 0
    let newByte := if black then old ||| (1 <<< p.2) else old &&& (255 ^^^ (1 <<< p.2))
    { st with buffer := st.buffer.set p.1 newByte }

/-- Embedding of `Display::get_pixel`: `none` when `x > WIDTH || y > HEIGHT`
(strict `>` as in the source); otherwise whether the addressed bit is set. -/
def get_pixel (st : St) (x y : Nat) : Option Bool :=
  if WIDTH < x ∨ HEIGHT < y then none
  else
    let p := get_index x y
    some ((st.buffer.getD p.1 0 &&& (1 <<< p.2)) != 0)

/-- Embedding of `Display::clear`: zero the buffer, assert chip-select, send
the clear command byte and one zero data byte (a failed command byte skips
the data byte and sets the failure flag), deassert chip-select, and report
failure. -/
def clear (hw : Hw) (s0 : St) : Except Unit Unit × St × List Ev :=
  let st := { s0 with buffer := s0.buffer.map (fun _ => 0) }
  match cs_set_low hw st with
  | (Except.error _, st, e1) => (Except.error (), st, e1)
  | (Except.ok _, st, e1) =>
    let c := command st clearBit
    let r :=
      match write_byte hw c.2 c.1 with
      | (Except.error _, st, ea) => (true, st, ea)
      | (Except.ok _, st, ea) =>
        match write_byte hw st 0 with
        | (Except.error _, st, eb) => (true, st, ea ++ eb)
        | (Except.ok _, st, eb) => (false, st, ea ++ eb)
    match cs_set_high hw r.2.1 with
    | (Except.error _, st, e3) => (Except.error (), st, e1 ++ r.2.2 ++ e3)
    | (Except.ok _, st, e3) =>
      if r.1 then (Except.error (), st, e1 ++ r.2.2 ++ e3)
      else (Except.ok (), st, e1 ++ r.2.2 ++ e3)

/-- Embedding of the `for i in 0..BUFFER_SIZE` loop of `Display::refresh`.
`rem` is the number of remaining iterations (`BUFFER_SIZE - i`), so the loop
is structurally recursive; `i` and `old_line` mirror the source variables.
Each iteration writes `buffer[i]`, computes
`current_line = (i+1)/(WIDTH/8) + 1`, and at a line change writes the `0x00`
terminator and, when `current_line <= HEIGHT`, the line index byte.  The
first write failure aborts the loop with the failure flag set. -/
def refreshLoop (hw : Hw) : Nat → Nat → Nat → St → Bool × St × List Ev
  | 0, _, _, st => (false, st, [])
  | rem + 1, i, old_line, st =>
    match write_byte hw st (st.buffer.getD i 0) with
    | (Except.error _, st, ea) => (true, st, ea)
    | (Except.ok _, st, ea) =>
      let current_line := (i + 1) / (WIDTH / 8) + 1
      if current_line != old_line then
        match write_byte hw st 0 with
        | (Except.error _, st, eb) => (true, st, ea ++ eb)
        | (Except.ok _, st, eb) =>
          if current_line ≤ HEIGHT then
            match write_byte hw st current_line with
            | (Except.error _, st, ec) => (true, st, ea ++ eb ++ ec)
            | (Except.ok _, st, ec) =>
              let r := refreshLoop hw rem (i + 1) current_line st
              (r.1, r.2.1, ea ++ eb ++ ec ++ r.2.2)
          else
            let r := refreshLoop hw rem (i + 1) current_line st
            (r.1, r.2.1, ea ++ eb ++ r.2.2)
      else
        let r := refreshLoop hw rem (i + 1) old_line st
        (r.1, r.2.1, ea ++ r.2.2)

/-- Embedding of `Display::refresh`: assert chip-select, issue the write
command byte, and only when that write succeeded run the buffer loop and
write the final `0x00` terminator; deassert chip-select; report failure.
Mirrors the source faithfully, including that a failed command byte write
leaves the failure flag unset (the source has no `else` branch there), and
that the final terminator write happens even after a loop failure. -/
def refresh (hw : Hw) (s0 : St) : Except Unit Unit × St × List Ev :=
  match cs_set_low hw s0 with
  | (Except.error _, st, e1) => (Except.error (), st, e1)
  | (Except.ok _, st, e1) =>
    let c := command st writeCmd
    let r :=
      match write_byte hw c.2 c.1 with
      | (Except.error _, st, ea) => (false, st, ea)
      | (Except.ok _, st, ea) =>
        let l := refreshLoop hw BUFFER_SIZE 0 1 st
        match write_byte hw l.2.1 0 with
        | (Except.error _, st, ec) => (true, st, ea ++ l.2.2 ++ ec)
        | (Except.ok _, st, ec) => (l.1, st, ea ++ l.2.2 ++ ec)
    match cs_set_high hw r.2.1 with
    | (Except.error _, st, e3) => (Except.error (), st, e1 ++ r.2.2 ++ e3)
    | (Except.ok _, st, e3) =>
      if r.1 then (Except.error (), st, e1 ++ r.2.2 ++ e3)
      else (Except.ok (), st, e1 ++ r.2.2 ++ e3)

/-- The bytes attempted on the SPI bus, in order, extracted from a trace. -/
def spiBytes (evs : List Ev) : List Nat :=
  evs.filterMap (fun e => match e with | Ev.spi b _ => some b | _ => none)

/-- Modelled from the spec: the addressed-line block list it describes, one
block per row, each block being the 1-based row index, that row's packed
pixel bytes, and a `0x00` terminator, in row order (`k` is the index of the
first block). -/
def claimBlocks : Nat → List (List Nat) → List Nat
  | _, [] => []
  | k, r :: rs => (k :: (r ++ [0])) ++ claimBlocks (k + 1) rs

/-- Modelled from the spec: a byte sequence decomposes into exactly `HEIGHT`
blocks of `(row index, row bytes, 0x00)` in row order, followed by one
trailing `0x00` byte. -/
def ClaimFraming (bytes : List Nat) : Prop :=
  ∃ rows : List (List Nat), rows.length = HEIGHT ∧ bytes = claimBlocks 1 rows ++ [0]

/-- Claim C1: the claim fails on the code.  `get_index` computes `y * WIDTH + x`
in `u8`, which wraps modulo 256, so the valid coordinates `(0, 6)` (bit
index 264 ≡ 8) and `(8, 0)` (bit index 8) share a bit: setting `(0, 6)`
flips the bit that `get_pixel (8, 0)` reads. -/
theorem C1_bug :
    get_pixel st0 8 0 = some false ∧
    get_pixel (set_pixel st0 0 6 true) 8 0 = some true :=
  ⟨by decide, by decide⟩

/-- Claim C4: the claim fails on the code.  When the command byte write of
`refresh` fails (oracle fails SPI call 0), the source skips the body without
setting the failure flag — there is no `else { failure = true }` — so
`refresh` returns `Ok(())` even though a byte write failed. -/
theorem C4_bug :
    (refresh (hwFailAt 0) st0).1 = Except.ok () ∧
    (refresh (hwFailAt 0) st0).2.2 =
      [Ev.csLow true, Ev.spi 192 false, Ev.csHigh true] :=
  ⟨rfl, by decide⟩

/-- Claim C5: the claim fails on the code.  With SPI call 1 failing (the first
buffer byte, after the command byte succeeded), the loop aborts but the
source still executes the final `write_byte(0)` outside the loop, so one
byte is transmitted after the failed one; chip-select is deasserted once. -/
theorem C5_bug :
    (refresh (hwFailAt 1) st0).2.2 =
      [Ev.csLow true, Ev.spi 192 true, Ev.spi 0 false, Ev.spi 0 true,
       Ev.csHigh true] ∧
    (refresh (hwFailAt 1) st0).1 = Except.error () :=
  ⟨by decide, rfl⟩

/-- Claim C6: the claim fails on the code.  The range checks use strict `>`
instead of `>=`, so the out-of-range coordinate `(WIDTH, 0)` is accepted:
`get_pixel` returns `some false` instead of `none`, and `set_pixel` mutates
the buffer. -/
theorem C6_bug :
    get_pixel st0 WIDTH 0 = some false ∧
    (set_pixel st0 WIDTH 0 true).buffer ≠ st0.buffer :=
  ⟨by decide, by decide⟩

/-- Claim C3: the claim fails on the code.  On the all-zero buffer the data bytes
of a successful `refresh` (the SPI bytes after the command byte) start with
`buffer[0] = 0`, while any decomposition into `HEIGHT` blocks of
`(row index, row bytes, 0x00)` must start with the row index `1`: the
source never emits the index byte of the first row. -/
theorem C3_bug :
    ¬ ClaimFraming ((spiBytes (refresh hwOk st0).2.2).drop 1) := by
  rintro ⟨rows, hlen, heq⟩
  cases rows with
  | nil => simp [HEIGHT] at hlen
  | cons r rs =>
    have h0 : ((spiBytes (refresh hwOk st0).2.2).drop 1).head? = some 0 := by decide
    rw [heq] at h0
    simp [claimBlocks] at h0

/-- No chip-select-assert event occurs in the trace. -/
def noCsLow (evs : List Ev) : Bool :=
  evs.all (fun e => match e with | Ev.csLow _ => false | _ => true)

theorem noCsLow_append (a b : List Ev) :
    noCsLow (a ++ b) = (noCsLow a && noCsLow b) := by
  simp [noCsLow]


theorem refreshLoop_state (hw : Hw) (fuel : Nat) : ∀ i ol st,
    ((refreshLoop hw fuel i ol st).2.1.vcom,
     (refreshLoop hw fuel i ol st).2.1.buffer,
     noCsLow (refreshLoop hw fuel i ol st).2.2) = (st.vcom, st.buffer, true) := by
  induction fuel with
  | zero => exact fun i ol st => rfl
  | succ n ih =>
    intro i ol st
    rw [refreshLoop]
    cases h1 : hw.spiFail st.spiCount <;> simp [write_byte, h1, noCsLow]
    split
    case isTrue =>
      have H := ih (i + 1) ol { st with spiCount := st.spiCount + 1 }
      simp only [Prod.mk.injEq] at H
      exact ⟨H.1, H.2.1, by simpa [noCsLow] using H.2.2⟩
    case isFalse =>
      cases h2 : hw.spiFail (st.spiCount + 1) <;> simp [h2, noCsLow]
      split
      case isTrue =>
        cases h3 : hw.spiFail (st.spiCount + 1 + 1) <;> simp [h3, noCsLow]
        have H := ih (i + 1) ((i + 1) / (WIDTH / 8) + 1)
          { st with spiCount := st.spiCount + 1 + 1 + 1 }
        simp only [Prod.mk.injEq] at H
        exact ⟨H.1, H.2.1, by simpa [noCsLow] using H.2.2⟩
      case isFalse =>
        have H := ih (i + 1) ((i + 1) / (WIDTH / 8) + 1)
          { st with spiCount := st.spiCount + 1 + 1 }
        simp only [Prod.mk.injEq] at H
        exact ⟨H.1, H.2.1, by simpa [noCsLow] using H.2.2⟩

@[simp]
theorem refreshLoop_vcom (hw : Hw) (fuel i ol : Nat) (st : St) :
    (refreshLoop hw fuel i ol st).2.1.vcom = st.vcom :=
  congrArg Prod.fst (refreshLoop_state hw fuel i ol st)

@[simp]
theorem refreshLoop_buffer (hw : Hw) (fuel i ol : Nat) (st : St) :
    (refreshLoop hw fuel i ol st).2.1.buffer = st.buffer :=
  congrArg (fun p => p.2.1) (refreshLoop_state hw fuel i ol st)

@[simp]
theorem refreshLoop_noCsLow (hw : Hw) (fuel i ol : Nat) (st : St) :
    noCsLow (refreshLoop hw fuel i ol st).2.2 = true :=
  congrArg (fun p => p.2.2) (refreshLoop_state hw fuel i ol st)

theorem refresh_vcom (hw : Hw) (st : St) (h : hw.csFail st.csCount = false) :
    (refresh hw st).2.1.vcom = ! st.vcom := by
  rw [refresh]
  cases h1 : hw.spiFail st.spiCount <;>
    simp [cs_set_low, write_byte, command, commandByte, h, h1]
  case true =>
    cases h3 : hw.csFail (st.csCount + 1) <;> simp [cs_set_high, h3]
  case false =>
    cases h2 : hw.spiFail ((refreshLoop hw BUFFER_SIZE 0 1
        { buffer := st.buffer, vcom := !st.vcom, spiCount := st.spiCount + 1,
          csCount := st.csCount + 1 }).2.1.spiCount) <;>
      simp [cs_set_high, h2] <;>
      cases h3 : hw.csFail ((refreshLoop hw BUFFER_SIZE 0 1
        { buffer := st.buffer, vcom := !st.vcom, spiCount := st.spiCount + 1,
          csCount := st.csCount + 1 }).2.1.csCount) <;>
      simp [h3] <;>
      split <;>
      simp

theorem clear_vcom (hw : Hw) (st : St) (h : hw.csFail st.csCount = false) :
    (clear hw st).2.1.vcom = ! st.vcom := by
  rw [clear]
  cases h1 : hw.spiFail st.spiCount <;>
    simp [cs_set_low, write_byte, command, commandByte, h, h1]
  case true =>
    cases h3 : hw.csFail (st.csCount + 1) <;> simp [cs_set_high, h3]
  case false =>
    cases h2 : hw.spiFail (st.spiCount + 1) <;> simp [cs_set_high, h2] <;>
      cases h3 : hw.csFail (st.csCount + 1) <;> simp [h3]

theorem clear_buffer (hw : Hw) (st : St) :
    (clear hw st).2.1.buffer = st.buffer.map (fun _ => 0) := by
  rw [clear]
  cases h0 : hw.csFail st.csCount <;>
    cases h1 : hw.spiFail st.spiCount <;>
    cases h2 : hw.spiFail (st.spiCount + 1) <;>
    cases h3 : hw.csFail (st.csCount + 1) <;>
    simp [cs_set_low, cs_set_high, write_byte, command, h0, h1, h2, h3]

theorem refresh_csfail (hw : Hw) (st : St) (h : hw.csFail st.csCount = true) :
    refresh hw st =
      (Except.error (), { st with csCount := st.csCount + 1 }, [Ev.csLow false]) := by
  simp [refresh, cs_set_low, h]

theorem clear_csfail (hw : Hw) (st : St) (h : hw.csFail st.csCount = true) :
    clear hw st =
      (Except.error (),
       { st with buffer := st.buffer.map (fun _ => 0), csCount := st.csCount + 1 },
       [Ev.csLow false]) := by
  simp [clear, cs_set_low, h]

theorem getD_replicate_zero (n i : Nat) : (List.replicate n 0).getD i 0 = 0 := by
  induction n generalizing i with
  | zero => cases i <;> rfl
  | succ m ih => cases i with
    | zero => rfl
    | succ j => exact ih j

theorem get_pixel_allzero (st : St) (hbuf : ∀ i, st.buffer.getD i 0 = 0)
    (x y : Nat) (hx : x < WIDTH) (hy : y < HEIGHT) :
    get_pixel st x y = some false := by
  have hcond : ¬(WIDTH < x ∨ HEIGHT < y) := by omega
  have hb := hbuf (get_index x y).1
  simp only [List.getD, List.get?_eq_getElem?] at hb
  simp [get_pixel, hcond, hb]

/-- Claim C9: after any call to `clear`, successful or not, every buffer byte is
zero: the source zeroes the buffer before touching chip-select or the bus,
and no later step of `clear` writes the buffer. -/
theorem C9_clear_always_zeroes (hw : Hw) (st : St) :
    (clear hw st).2.1.buffer = List.replicate st.buffer.length 0 := by
  rw [clear_buffer]
  simp

/-- Claim C10: when the initial chip-select assertion of `refresh` fails, the call
returns an error, the buffer and the VCOM polarity are unchanged, and the
only event of the transaction is the failed chip-select assert — no byte is
written. -/
theorem C10_refresh_csfail_frame (hw : Hw) (st : St)
    (h : hw.csFail st.csCount = true) :
    (refresh hw st).1 = Except.error () ∧
    (refresh hw st).2.1.buffer = st.buffer ∧
    (refresh hw st).2.1.vcom = st.vcom ∧
    (refresh hw st).2.2 = [Ev.csLow false] := by
  rw [refresh_csfail hw st h]
  exact ⟨rfl, rfl, rfl, rfl⟩

theorem C10_refresh_csfail_frame_witness :
    hwCsFailAll.csFail st0.csCount = true ∧
    ((refresh hwCsFailAll st0).1 = Except.error () ∧
     (refresh hwCsFailAll st0).2.1.buffer = st0.buffer ∧
     (refresh hwCsFailAll st0).2.1.vcom = st0.vcom ∧
     (refresh hwCsFailAll st0).2.2 = [Ev.csLow false]) :=
  ⟨rfl, C10_refresh_csfail_frame hwCsFailAll st0 rfl⟩

/-- Claim C7: whenever `clear` or `refresh` gets past the chip-select assertion
(and hence issues its command byte via `command`), the stored VCOM polarity
of the resulting state is the negation of the previous one, for every fault
oracle — the toggle does not depend on the success of the command byte
write or of any later byte write of the transaction. -/
theorem C7_command_toggles (hw : Hw) (st : St)
    (h : hw.csFail st.csCount = false) :
    (clear hw st).2.1.vcom = ! st.vcom ∧
    (refresh hw st).2.1.vcom = ! st.vcom :=
  ⟨clear_vcom hw st h, refresh_vcom hw st h⟩

theorem C7_command_toggles_witness :
    hwOk.csFail st0.csCount = false ∧
    ((clear hwOk st0).2.1.vcom = ! st0.vcom ∧
     (refresh hwOk st0).2.1.vcom = ! st0.vcom) :=
  ⟨rfl, C7_command_toggles hwOk st0 rfl⟩

/-- Claim C8: after a successful `clear`, every byte of the buffer is zero and
`get_pixel` returns `some false` at every valid coordinate
(`x < WIDTH`, `y < HEIGHT`). -/
theorem C8_clear_idempotence (hw : Hw) (st : St)
    (_h : (clear hw st).1 = Except.ok ()) :
    (clear hw st).2.1.buffer = List.replicate st.buffer.length 0 ∧
    ∀ x y, x < WIDTH → y < HEIGHT →
      get_pixel (clear hw st).2.1 x y = some false := by
  have hb : (clear hw st).2.1.buffer = List.replicate st.buffer.length 0 := by
    rw [clear_buffer]
    simp
  refine ⟨hb, fun x y hx hy => get_pixel_allzero _ ?_ x y hx hy⟩
  intro i
  rw [hb]
  exact getD_replicate_zero _ _

theorem C8_clear_idempotence_witness :
    (clear hwOk st0).1 = Except.ok () ∧
    ((clear hwOk st0).2.1.buffer = List.replicate st0.buffer.length 0 ∧
     ∀ x y, x < WIDTH → y < HEIGHT →
       get_pixel (clear hwOk st0).2.1 x y = some false) :=
  ⟨rfl, C8_clear_idempotence hwOk st0 rfl⟩

inductive COp where
  | clearOp
  | refreshOp

def opcode : COp → Nat
  | COp.clearOp => clearBit
  | COp.refreshOp => writeCmd

def runOp (hw : Hw) (st : St) : COp → Except Unit Unit × St × List Ev
  | COp.clearOp => clear hw st
  | COp.refreshOp => refresh hw st

def runOps (hw : Hw) : St → List COp → St × List Ev
  | st, [] => (st, [])
  | st, op :: ops =>
    let r := runOp hw st op
    let rest := runOps hw r.2.1 ops
    (rest.1, r.2.2 ++ rest.2)

def allOk (hw : Hw) : St → List COp → Bool
  | _, [] => true
  | st, op :: ops =>
    match runOp hw st op with
    | (Except.ok _, st1, _) => allOk hw st1 ops
    | (Except.error _, _, _) => false

def cmdBytesAux : Bool → List Ev → List Nat
  | _, [] => []
  | true, Ev.spi d _ :: rest => d :: cmdBytesAux false rest
  | _, Ev.csLow _ :: rest => cmdBytesAux true rest
  | _, _ :: rest => cmdBytesAux false rest

def cmdBytes (evs : List Ev) : List Nat := cmdBytesAux false evs

def altSeq (v : Bool) : Nat → List Bool
  | 0 => []
  | n + 1 => v :: altSeq (!v) n

theorem cmdBytesAux_csLow (f b : Bool) (t : List Ev) :
    cmdBytesAux f (Ev.csLow b :: t) = cmdBytesAux true t := by
  cases f <;> rfl

theorem cmdBytesAux_true_spi (d : Nat) (k : Bool) (t : List Ev) :
    cmdBytesAux true (Ev.spi d k :: t) = d :: cmdBytesAux false t := rfl

theorem cmdBytesAux_false_spi (d : Nat) (k : Bool) (t : List Ev) :
    cmdBytesAux false (Ev.spi d k :: t) = cmdBytesAux false t := rfl

theorem cmdBytesAux_csHigh (f k : Bool) (t : List Ev) :
    cmdBytesAux f (Ev.csHigh k :: t) = cmdBytesAux false t := by
  cases f <;> rfl

theorem cmdBytes_append_noCsLow :
    ∀ l, noCsLow l = true → ∀ r, cmdBytesAux false (l ++ r) = cmdBytesAux false r := by
  intro l
  induction l with
  | nil => exact fun _ r => rfl
  | cons e t ih =>
    intro hl r
    cases e with
    | spi d k =>
      have ht : noCsLow t = true := by simpa [noCsLow] using hl
      simpa [cmdBytesAux_false_spi] using ih ht r
    | csLow b => simp [noCsLow] at hl
    | csHigh k =>
      have ht : noCsLow t = true := by simpa [noCsLow] using hl
      simpa [cmdBytesAux_csHigh] using ih ht r

theorem testBit6_commandByte (v : Bool) (op : COp) :
    (commandByte v (opcode op)).testBit 6 = v := by
  cases op <;> cases v <;> decide

theorem clear_shape (hw : Hw) (st : St) (h : hw.csFail st.csCount = false) :
    ∃ ok rest, (clear hw st).2.2 =
      Ev.csLow true :: Ev.spi (commandByte st.vcom clearBit) ok :: rest ∧
      noCsLow rest = true := by
  rw [clear]
  cases h1 : hw.spiFail st.spiCount <;>
    simp [cs_set_low, write_byte, command, h, h1]
  case true =>
    cases h3 : hw.csFail (st.csCount + 1) <;> simp [cs_set_high, h3, noCsLow]
  case false =>
    cases h2 : hw.spiFail (st.spiCount + 1) <;> simp [cs_set_high, h2] <;>
      cases h3 : hw.csFail (st.csCount + 1) <;> simp [h3, noCsLow]

theorem refresh_shape (hw : Hw) (st : St) (h : hw.csFail st.csCount = false) :
    ∃ ok rest, (refresh hw st).2.2 =
      Ev.csLow true :: Ev.spi (commandByte st.vcom writeCmd) ok :: rest ∧
      noCsLow rest = true := by
  rw [refresh]
  cases h1 : hw.spiFail st.spiCount <;>
    simp [cs_set_low, write_byte, command, h, h1]
  case true =>
    cases h3 : hw.csFail (st.csCount + 1) <;> simp [cs_set_high, h3, noCsLow]
  case false =>
    cases h2 : hw.spiFail ((refreshLoop hw BUFFER_SIZE 0 1
        { buffer := st.buffer, vcom := !st.vcom, spiCount := st.spiCount + 1,
          csCount := st.csCount + 1 }).2.1.spiCount) <;>
      simp [cs_set_high, h2] <;>
      cases h3 : hw.csFail ((refreshLoop hw BUFFER_SIZE 0 1
        { buffer := st.buffer, vcom := !st.vcom, spiCount := st.spiCount + 1,
          csCount := st.csCount + 1 }).2.1.csCount) <;>
      cases hf : (refreshLoop hw BUFFER_SIZE 0 1
        { buffer := st.buffer, vcom := !st.vcom, spiCount := st.spiCount + 1,
          csCount := st.csCount + 1 }).1 <;>
      simp [h3, hf, noCsLow, noCsLow_append] <;>
      (intro x hx
       rcases hx with hx | rfl | rfl
       · have hn := refreshLoop_noCsLow hw BUFFER_SIZE 0 1
           { buffer := st.buffer, vcom := !st.vcom, spiCount := st.spiCount + 1,
             csCount := st.csCount + 1 }
         simp [noCsLow] at hn
         exact hn x hx
       · rfl
       · rfl)

theorem runOp_vcom_toggle (hw : Hw) (st : St) (op : COp)
    (h : hw.csFail st.csCount = false) :
    (runOp hw st op).2.1.vcom = ! st.vcom := by
  cases op
  · exact clear_vcom hw st h
  · exact refresh_vcom hw st h

theorem runOp_shape (hw : Hw) (st : St) (op : COp)
    (h : hw.csFail st.csCount = false) :
    ∃ ok rest, (runOp hw st op).2.2 =
      Ev.csLow true :: Ev.spi (commandByte st.vcom (opcode op)) ok :: rest ∧
      noCsLow rest = true := by
  cases op
  · exact clear_shape hw st h
  · exact refresh_shape hw st h

theorem runOp_csfail (hw : Hw) (st : St) (op : COp)
    (h : hw.csFail st.csCount = true) :
    (runOp hw st op).2.1.vcom = st.vcom ∧
    (runOp hw st op).2.2 = [Ev.csLow false] := by
  cases op <;>
    simp [runOp, clear_csfail hw st h, refresh_csfail hw st h]

theorem runOps_evs_head (hw : Hw) (st : St) (ops : List COp) :
    (runOps hw st ops).2 = [] ∨
    ∃ b rest, (runOps hw st ops).2 = Ev.csLow b :: rest := by
  cases ops with
  | nil => exact Or.inl rfl
  | cons op ops =>
    right
    cases h : hw.csFail st.csCount
    case false =>
      obtain ⟨ok, rest, he, -⟩ := runOp_shape hw st op h
      refine ⟨true, (Ev.spi (commandByte st.vcom (opcode op)) ok :: rest) ++
        (runOps hw (runOp hw st op).2.1 ops).2, ?_⟩
      simp [runOps, he]
    case true =>
      obtain ⟨-, he⟩ := runOp_csfail hw st op h
      refine ⟨false, (runOps hw (runOp hw st op).2.1 ops).2, ?_⟩
      simp [runOps, he]

theorem cmdBits_alt (hw : Hw) : ∀ ops st,
    (cmdBytes (runOps hw st ops).2).map (fun b => b.testBit 6)
      = altSeq st.vcom (cmdBytes (runOps hw st ops).2).length := by
  intro ops
  induction ops with
  | nil => exact fun st => rfl
  | cons op ops ih =>
    intro st
    cases h : hw.csFail st.csCount
    case false =>
      obtain ⟨ok, rest, he, hn⟩ := runOp_shape hw st op h
      have hv := runOp_vcom_toggle hw st op h
      have hrw : cmdBytes (runOps hw st (op :: ops)).2
          = commandByte st.vcom (opcode op) ::
            cmdBytes (runOps hw (runOp hw st op).2.1 ops).2 := by
        show cmdBytesAux false
          ((runOp hw st op).2.2 ++ (runOps hw (runOp hw st op).2.1 ops).2) = _
        rw [he]
        simp only [List.cons_append, cmdBytesAux_csLow, cmdBytesAux_true_spi]
        rw [cmdBytes_append_noCsLow rest hn]
        rfl
      rw [hrw]
      simp only [List.map_cons, List.length_cons, altSeq]
      rw [testBit6_commandByte, ih ((runOp hw st op).2.1), hv]
    case true =>
      obtain ⟨hv, he⟩ := runOp_csfail hw st op h
      have hstep : cmdBytes (runOps hw st (op :: ops)).2
          = cmdBytes (runOps hw (runOp hw st op).2.1 ops).2 := by
        show cmdBytesAux false
          ((runOp hw st op).2.2 ++ (runOps hw (runOp hw st op).2.1 ops).2) = _
        rw [he]
        simp only [List.cons_append, List.nil_append, cmdBytesAux_csLow]
        rcases runOps_evs_head hw (runOp hw st op).2.1 ops with hnil | ⟨b, rest, hr⟩
        · rw [hnil]
          rfl
        · rw [hr, cmdBytesAux_csLow]
          rfl
      rw [hstep, ih ((runOp hw st op).2.1), hv]

theorem altSeq_alternating : ∀ (n : Nat) (v : Bool) (k : Nat), k + 1 < n →
    (altSeq v n).getD k false = ! (altSeq v n).getD (k + 1) false := by
  intro n
  induction n with
  | zero => exact fun v k hk => absurd hk (by omega)
  | succ m ih =>
    intro v k hk
    cases k with
    | zero =>
      cases m with
      | zero => omega
      | succ p => simp [altSeq]
    | succ j =>
      have hj : j + 1 < m := by omega
      simpa [altSeq] using ih (!v) j hj

theorem getD_map_testBit : ∀ (L : List Nat) (k : Nat), k < L.length →
    (L.map (fun b => b.testBit 6)).getD k false = (L.getD k 0).testBit 6 := by
  intro L
  induction L with
  | nil => exact fun k hk => absurd hk (by simp)
  | cons a t ih =>
    intro k hk
    cases k with
    | zero => rfl
    | succ j =>
      have hj : j < t.length := by simpa using hk
      simpa [List.getD_cons_succ] using ih j hj

/-- Claim C2: across any sequence of `clear`/`refresh` calls on one driver
instance in which every call succeeds, the VCOM bit `0x40` (bit 6) of the
transmitted command bytes — the SPI byte sent right after each chip-select
assert — alternates strictly from one command byte to the next, regardless
of which of the two operations was invoked each time. -/
theorem C2_vcom_alternation (hw : Hw) (st : St) (ops : List COp) (k : Nat)
    (_hok : allOk hw st ops = true)
    (hk : k + 1 < (cmdBytes (runOps hw st ops).2).length) :
    ((cmdBytes (runOps hw st ops).2).getD k 0).testBit 6
      = ! ((cmdBytes (runOps hw st ops).2).getD (k + 1) 0).testBit 6 := by
  have H := cmdBits_alt hw ops st
  have hk0 : k < (cmdBytes (runOps hw st ops).2).length := by omega
  have e1 := getD_map_testBit (cmdBytes (runOps hw st ops).2) k hk0
  have e2 := getD_map_testBit (cmdBytes (runOps hw st ops).2) (k + 1) hk
  rw [← e1, ← e2, H]
  exact altSeq_alternating _ st.vcom k hk

theorem C2_vcom_alternation_witness :
    allOk hwOk st0 [COp.clearOp, COp.clearOp] = true ∧
    0 + 1 < (cmdBytes (runOps hwOk st0 [COp.clearOp, COp.clearOp]).2).length ∧
    (((cmdBytes (runOps hwOk st0 [COp.clearOp, COp.clearOp]).2).getD 0 0).testBit 6
      = ! ((cmdBytes (runOps hwOk st0 [COp.clearOp, COp.clearOp]).2).getD
          (0 + 1) 0).testBit 6) :=
  ⟨by decide, by decide,
   C2_vcom_alternation hwOk st0 [COp.clearOp, COp.clearOp] 0 (by decide) (by decide)⟩
